import Mathlib

/-!
Verification of the two build scripts of the Modular Macropad firmware
repository: scripts/build_sveltekit.py (frontend packager) and
scripts/version.py (version stamper).

The scripts are shallowly embedded: filesystem trees become lists of file
entries, subprocess invocations and per-file exceptions become outcome
oracles supplied as parameters, and the process working directory is
recovered from the trace of chdir events the embedded function emits.
-/

/-! ## Version stamper: scripts/version.py -/

/-- The character class of the regex escape for whitespace, restricted to
ASCII (space, tab, newline, carriage return, vertical tab, form feed). -/
def isPySpace (c : Char) : Bool :=
  c == ' ' || c == '\t' || c == '\n' || c == '\r' ||
    c == Char.ofNat 11 || c == Char.ofNat 12

/-- Attempt to match the pattern of scripts/version.py line 15 — literal
word version, any run of whitespace, an equals sign, any run of whitespace,
then a double-quoted nonempty run of non-quote characters — at the head of
the character list, returning the captured group. Greedy runs followed by a
character outside the repeated class are exactly maximal munch, so dropWhile
and takeWhile model the regex semantics here. -/
def matchVersionAt : List Char → Option String
  | 'v' :: 'e' :: 'r' :: 's' :: 'i' :: 'o' :: 'n' :: rest =>
    match rest.dropWhile isPySpace with
    | '=' :: rest2 =>
      match rest2.dropWhile isPySpace with
      | '"' :: rest3 =>
        match rest3.dropWhile (fun c => c != '"'), rest3.takeWhile (fun c => c != '"') with
        | '"' :: _, grp => if grp.isEmpty then none else some (String.mk grp)
        | _, _ => none
      | _ => none
    | _ => none
  | _ => none

/-- Leftmost search for the version pattern, as re.search does: try every
start position from the left and return the first match. -/
def searchVersion : List Char → Option String
  | [] => none
  | c :: cs =>
    match matchVersionAt (c :: cs) with
    | some v => some v
    | none => searchVersion cs

/-- scripts/version.py lines 11-18: extract the quoted version value from
the configuration file content via re.search, falling back to 1.0.0 when
no match exists. -/
def get_semantic_version (content : String) : String :=
  match searchVersion content.data with
  | some v => v
  | none => "1.0.0"

/-- Split a character list at every newline, the way str.split does: the
result always has one more piece than there are newlines. -/
def splitLines : List Char → List (List Char)
  | [] => [[]]
  | c :: cs =>
    let r := splitLines cs
    if c = '\n' then [] :: r
    else
      match r with
      | [] => [[c]]
      | l :: ls => (c :: l) :: ls

/-- Modelled from the spec: the specification describes the extraction as a
line-oriented pattern match. This definition applies the same pattern line
by line (so the whitespace of the pattern can never span a line break), to
be compared with the whole-content search the code performs. -/
def get_semantic_version_lineOriented (content : String) : String :=
  match (splitLines content.data).findSome? (fun line => searchVersion line) with
  | some v => v
  | none => "1.0.0"

/-- The persisted build-info record of scripts/version.py. The
build number field is optional because the reading code supplies a default
when the key is absent from the JSON object. -/
structure BuildInfoFile where
  semantic_version : String
  build_number : Option Int
  last_build : String
deriving DecidableEq, Repr

/-- scripts/version.py lines 20-26: the current build number is the
persisted field when the file and the field exist, and 1 otherwise. -/
def get_current_build_number (st : Option BuildInfoFile) : Int :=
  match st with
  | none => 1
  | some data =>
    match data.build_number with
    | some n => n
    | none => 1

/-- scripts/version.py lines 28-36: overwrite the persisted record with the
new triple (version, build number, timestamp). -/
def save_build_info (semantic_version : String) (build_number : Int)
    (timestamp : String) : BuildInfoFile :=
  { semantic_version := semantic_version,
    build_number := some build_number,
    last_build := timestamp }

/-- scripts/version.py lines 38-50: the generated header content, a fixed
template embedding the version, the build number and a build date. -/
def update_version_header (semantic_version : String) (build_number : Int)
    (build_date : String) : String :=
  "#ifndef VERSION_H\n#define VERSION_H\n\n#define FIRMWARE_VERSION \"" ++
    semantic_version ++ "\"\n#define FIRMWARE_BUILD_NUMBER " ++
    toString build_number ++ "\n#define FIRMWARE_BUILD_DATE \"" ++
    build_date ++ "\"\n\n#endif // VERSION_H\n"

/-- scripts/version.py lines 52-67: one run of the version stamper. Inputs
are the configuration file content, the persisted build-info state (none
when the file is absent) and the two timestamps the two datetime.now calls
observe. Outputs are the newly persisted record, the header file content,
and the two environment values (BUILD_NUMBER, SEMANTIC_VERSION). -/
def version_main (config : String) (st : Option BuildInfoFile)
    (tsIso tsHdr : String) : BuildInfoFile × String × String × String :=
  let semantic_version := get_semantic_version config
  let current_build := get_current_build_number st
  let new_build := current_build + 1
  (save_build_info semantic_version new_build tsIso,
   update_version_header semantic_version new_build tsHdr,
   toString new_build, semantic_version)

/-! ## Frontend packager: scripts/build_sveltekit.py -/

/-- The package managers the build script can detect. -/
inductive PkgManager
  | pnpm
  | yarn
  | npm
deriving DecidableEq, Repr

/-- scripts/build_sveltekit.py lines 24-32: detect the package manager from
the presence of the four marker files in the frontend directory, in
priority order pnpm lockfile, yarn lockfile, then npm lockfile or manifest.
The source only performs existence checks, so the embedding is a pure
function of the four existence bits. -/
def get_package_manager (pnpmLock yarnLock npmLock packageJson : Bool) :
    Option PkgManager :=
  if pnpmLock then some PkgManager.pnpm
  else if yarnLock then some PkgManager.yarn
  else if npmLock || packageJson then some PkgManager.npm
  else none

/-- Outcome of one subprocess.run call with check enabled: clean exit,
CalledProcessError from a nonzero exit, or any other exception. -/
inductive ProcOutcome
  | ok
  | calledError
  | unexpected
deriving DecidableEq, Repr

/-- The state of the world that scripts/build_sveltekit.py lines 34-78
observes: existence of the frontend directory, of the four package-manager
marker files, of the node_modules directory, the outcomes the two
subprocess calls would have, and whether the build directory exists after
the build command. -/
structure FrontendWorld where
  frontendDirExists : Bool
  pnpmLock : Bool
  yarnLock : Bool
  npmLock : Bool
  packageJson : Bool
  nodeModules : Bool
  installOutcome : ProcOutcome
  buildOutcome : ProcOutcome
  buildDirExistsAfter : Bool
deriving DecidableEq, Repr

/-- The externally visible actions build_frontend performs, in order: the
chdir into the frontend directory (line 51), the install and build
subprocess calls (lines 57 and 61), and the chdir back to the saved
original directory (lines 66, 69, 73, 77). -/
inductive FsEvent
  | chdirFrontend
  | runInstall (pm : PkgManager)
  | runBuild (pm : PkgManager)
  | chdirOriginal
deriving DecidableEq, Repr

/-- The process working directory after a trace of events, starting from
the original directory cwd0; chdirFrontend moves to the frontend directory
fdir and chdirOriginal moves back to the saved cwd0. -/
def runCwd (cwd0 fdir : String) (evs : List FsEvent) : String :=
  evs.foldl
    (fun cwd e =>
      match e with
      | FsEvent.chdirFrontend => fdir
      | FsEvent.chdirOriginal => cwd0
      | _ => cwd)
    cwd0

/-- scripts/build_sveltekit.py lines 34-78: build the frontend. Returns the
boolean result together with the trace of chdir and subprocess events.
Early exits (missing frontend directory, line 38, and no detected package
manager, line 44) return before any event. Inside the try block the
install command runs only when node_modules is absent; an exception from
either subprocess is caught by the handlers at lines 71-78, which chdir
back and return failure, and every other path also chdirs back before
returning. -/
def build_frontend (w : FrontendWorld) : Bool × List FsEvent :=
  if w.frontendDirExists = false then (false, [])
  else
    match get_package_manager w.pnpmLock w.yarnLock w.npmLock w.packageJson with
    | none => (false, [])
    | some pm =>
      let installEvs := if w.nodeModules then [] else [FsEvent.runInstall pm]
      let installRes := if w.nodeModules then ProcOutcome.ok else w.installOutcome
      match installRes with
      | ProcOutcome.calledError =>
        (false, FsEvent.chdirFrontend :: installEvs ++ [FsEvent.chdirOriginal])
      | ProcOutcome.unexpected =>
        (false, FsEvent.chdirFrontend :: installEvs ++ [FsEvent.chdirOriginal])
      | ProcOutcome.ok =>
        match w.buildOutcome with
        | ProcOutcome.calledError =>
          (false, FsEvent.chdirFrontend :: installEvs ++
            [FsEvent.runBuild pm, FsEvent.chdirOriginal])
        | ProcOutcome.unexpected =>
          (false, FsEvent.chdirFrontend :: installEvs ++
            [FsEvent.runBuild pm, FsEvent.chdirOriginal])
        | ProcOutcome.ok =>
          if w.buildDirExistsAfter = false then
            (false, FsEvent.chdirFrontend :: installEvs ++
              [FsEvent.runBuild pm, FsEvent.chdirOriginal])
          else
            (true, FsEvent.chdirFrontend :: installEvs ++
              [FsEvent.runBuild pm, FsEvent.chdirOriginal])

/-- File contents: either raw bytes from the build tree, or the gzip
compression of some content (compress_file at line 84 writes the compressed
stream of its input). Compression is modelled as a constructor, which keeps
it injective and executable. -/
inductive FileContent
  | raw (s : String)
  | gzip (c : FileContent)
deriving DecidableEq, Repr

/-- One file of a directory tree: the relative directory path (as a list of
components), the file name, and the content. -/
structure FileEntry where
  dir : List String
  name : String
  content : FileContent
deriving DecidableEq, Repr

/-- Python str.endswith on whole strings: the suffix check used at
scripts/build_sveltekit.py line 132. -/
def endswith (s suffix : String) : Bool :=
  decide (suffix.data <:+ s.data)

/-- The fixed compressed-file suffix of the build script. -/
def gzSuffix : String := ".gz"

/-- scripts/build_sveltekit.py lines 80-92 seen from the tree level: the
result of one compress_file call on a file, where the oracle says whether
the call succeeds. On success the original is replaced by its compressed
sibling carrying the added suffix; on failure the original is kept (a
partially written sibling may also exist, but it carries the compressed
suffix and is never revisited by the walk, so the tree model elides it). -/
structure WalkResult where
  files : List FileEntry
  compressed : Nat
  errors : Nat
  attempted : List (List String × String)
deriving DecidableEq, Repr

/-- scripts/build_sveltekit.py lines 126-136: walk every file of the copied
tree; skip files already carrying the compressed suffix; attempt
compress_file on each remaining file, counting successes and failures.
os.walk snapshots each directory listing before its files are processed and
the walk only creates suffixed files, so the walk is a pure pass over the
files present after the copy. -/
def compressWalk (ok : List String → String → Bool) :
    List FileEntry → WalkResult
  | [] => { files := [], compressed := 0, errors := 0, attempted := [] }
  | f :: rest =>
    let r := compressWalk ok rest
    if endswith f.name gzSuffix then
      { r with files := f :: r.files }
    else if ok f.dir f.name then
      { r with
        files :=
          { dir := f.dir, name := f.name ++ gzSuffix,
            content := FileContent.gzip f.content } :: r.files,
        compressed := r.compressed + 1,
        attempted := (f.dir, f.name) :: r.attempted }
    else
      { r with
        files := f :: r.files,
        errors := r.errors + 1,
        attempted := (f.dir, f.name) :: r.attempted }

/-- The filesystem state process_frontend_files touches: the build
directory produced by the frontend build (none when absent) and the
current contents of the output directory. -/
structure PackWorld where
  buildDir : Option (List FileEntry)
  outputDir : List FileEntry
deriving DecidableEq, Repr

/-- scripts/build_sveltekit.py lines 94-142: verify the build directory
exists (returning failure with the world untouched when it does not),
create the output directory, delete every entry under it, copy the build
tree into the now-empty output directory, then compress every file not
already carrying the compressed suffix. Returns success exactly when no
per-file compression failed. -/
def process_frontend_files (ok : List String → String → Bool)
    (w : PackWorld) : Bool × PackWorld :=
  match w.buildDir with
  | none => (false, w)
  | some build =>
    let cleaned : List FileEntry := []
    let copied := cleaned ++ build
    let r := compressWalk ok copied
    (r.errors == 0, { w with outputDir := r.files })

/-- Per-file state for the fine-grained model of compress_file: whether the
original file is still present, and whether a compressed sibling exists and
is partially or completely written. -/
inductive GzState
  | partialFile
  | complete
deriving DecidableEq, Repr

/-- Per-file filesystem state threaded through compress_file. -/
structure CFState where
  originalPresent : Bool
  gzWritten : Option GzState
deriving DecidableEq, Repr

/-- Where, if anywhere, one compress_file call raises: opening the input,
writing the compressed stream, or removing the original. -/
inductive CompressOutcome
  | ok
  | openFail
  | writeFail
  | removeFail
deriving DecidableEq, Repr

/-- scripts/build_sveltekit.py lines 80-92, step by step: open the input
(may raise before anything is created), open the compressed sibling and
stream the input into it (a failure leaves a partial sibling), close both
files on leaving the with blocks (the sibling is now complete), and only
then remove the original (whose failure leaves the original in place).
Every exception is caught and turned into a failure return. -/
def compress_file (o : CompressOutcome) (s : CFState) : Bool × CFState :=
  if o = CompressOutcome.openFail then (false, s)
  else
    let s1 := { s with gzWritten := some GzState.partialFile }
    if o = CompressOutcome.writeFail then (false, s1)
    else
      let s2 := { s1 with gzWritten := some GzState.complete }
      if o = CompressOutcome.removeFail then (false, s2)
      else (true, { s2 with originalPresent := false })

/-- The compressed counterpart of a file entry: same relative directory,
the suffix appended to the name, the content compressed. -/
def gzEntry (f : FileEntry) : FileEntry :=
  { dir := f.dir, name := f.name ++ gzSuffix, content := FileContent.gzip f.content }

/-! ## Concrete sample inputs used by the witness theorems -/

/-- A small build tree: two files, in distinct directories, neither
carrying the compressed suffix. -/
def sampleBuild : List FileEntry :=
  [ { dir := [], name := "index.html", content := FileContent.raw "home" },
    { dir := ["assets"], name := "app.js", content := FileContent.raw "code" } ]

/-- A world whose output directory holds stale content from an earlier
deployment. -/
def sampleWorld : PackWorld :=
  { buildDir := some sampleBuild,
    outputDir := [ { dir := [], name := "stale.txt", content := FileContent.raw "old" } ] }

/-- A compression oracle under which every file compresses. -/
def allOk : List String → String → Bool := fun _ _ => true

/-- A build tree with one file that will fail to compress and one file
already carrying the compressed suffix. -/
def mixedBuild : List FileEntry :=
  [ { dir := [], name := "good.js", content := FileContent.raw "a" },
    { dir := [], name := "bad.css", content := FileContent.raw "b" },
    { dir := [], name := "done.gz", content := FileContent.raw "c" } ]

/-- A world holding mixedBuild as its build tree. -/
def mixedWorld : PackWorld :=
  { buildDir := some mixedBuild, outputDir := [] }

/-- A compression oracle that fails exactly on the file named bad.css. -/
def mixedOk : List String → String → Bool := fun _ name => name != "bad.css"

/-- A world with no build directory but a nonempty output directory. -/
def staleWorld : PackWorld :=
  { buildDir := none,
    outputDir := [ { dir := [], name := "keep.gz", content := FileContent.raw "k" } ] }

/-- A frontend world that reaches the chdir and then sees the install
command fail with a nonzero exit. -/
def sampleFrontendWorld : FrontendWorld :=
  { frontendDirExists := true, pnpmLock := true, yarnLock := false, npmLock := false,
    packageJson := false, nodeModules := false,
    installOutcome := ProcOutcome.calledError, buildOutcome := ProcOutcome.ok,
    buildDirExistsAfter := true }

/-- A frontend world whose directory exists but holds none of the four
package-manager marker files. -/
def bareFrontendWorld : FrontendWorld :=
  { frontendDirExists := true, pnpmLock := false, yarnLock := false, npmLock := false,
    packageJson := false, nodeModules := false,
    installOutcome := ProcOutcome.ok, buildOutcome := ProcOutcome.ok,
    buildDirExistsAfter := true }

/-! ## Helper lemmas -/

/-- Maximal munch of the non-quote class stops exactly at the closing
quote. -/
theorem takeWhile_append_quote (l r : List Char) (h : ∀ c ∈ l, (c == '"') = false) :
    (l ++ '"' :: r).takeWhile (fun c => c != '"') = l := by
  induction l with
  | nil => simp [List.takeWhile_cons]
  | cons c cs ih =>
    have hc : c ≠ '"' := by simpa using h c (List.mem_cons_self c cs)
    simp [List.takeWhile_cons, hc, ih (fun d hd => h d (List.mem_cons_of_mem c hd))]

/-- Dropping the non-quote class leaves the closing quote at the head. -/
theorem dropWhile_append_quote (l r : List Char) (h : ∀ c ∈ l, (c == '"') = false) :
    (l ++ '"' :: r).dropWhile (fun c => c != '"') = '"' :: r := by
  induction l with
  | nil => simp [List.dropWhile_cons]
  | cons c cs ih =>
    have hc : c ≠ '"' := by simpa using h c (List.mem_cons_self c cs)
    simp [List.dropWhile_cons, hc, ih (fun d hd => h d (List.mem_cons_of_mem c hd))]

/-- The pattern matcher succeeds on a well-formed assignment at the head of
the input and captures exactly the quoted value. -/
theorem matchVersionAt_assignment (v rest : String) (hne : v.data ≠ [])
    (hq : ∀ c ∈ v.data, (c == '"') = false) :
    matchVersionAt
        ('v' :: 'e' :: 'r' :: 's' :: 'i' :: 'o' :: 'n' :: ' ' :: '=' :: ' ' :: '"' ::
          (v.data ++ '"' :: rest.data)) = some v := by
  have hstep : matchVersionAt
      ('v' :: 'e' :: 'r' :: 's' :: 'i' :: 'o' :: 'n' :: ' ' :: '=' :: ' ' :: '"' ::
        (v.data ++ '"' :: rest.data))
      = (match (v.data ++ '"' :: rest.data).dropWhile (fun c => c != '"'),
              (v.data ++ '"' :: rest.data).takeWhile (fun c => c != '"') with
         | '"' :: _, grp => if grp.isEmpty then none else some (String.mk grp)
         | _, _ => none) := rfl
  rw [hstep, takeWhile_append_quote _ _ hq, dropWhile_append_quote _ _ hq]
  cases hv : v.data with
  | nil => exact absurd hv hne
  | cons a as =>
    simp only [List.isEmpty_cons]
    show some (String.mk (a :: as)) = some v
    rw [← hv]

/-- Appending the compressed suffix always yields a name that ends with the
compressed suffix. -/
theorem endswith_append_gz (s : String) : endswith (s ++ gzSuffix) gzSuffix = true := by
  simp only [endswith, String.data_append, decide_eq_true_eq]
  exact List.suffix_append _ _

/-- Appending the compressed suffix is injective on names. -/
theorem append_gz_right_cancel {a b : String} (h : a ++ gzSuffix = b ++ gzSuffix) :
    a = b := by
  have hd : a.data ++ gzSuffix.data = b.data ++ gzSuffix.data := by
    rw [← String.data_append, ← String.data_append, h]
  exact String.ext (List.append_cancel_right hd)

/-- When every file lacks the compressed suffix and every compression
succeeds, the walk replaces every file by its compressed counterpart,
counts every file as compressed, and reports no errors. -/
theorem compressWalk_all_ok (ok : List String → String → Bool) (l : List FileEntry)
    (hgz : ∀ f ∈ l, endswith f.name gzSuffix = false)
    (hok : ∀ f ∈ l, ok f.dir f.name = true) :
    compressWalk ok l =
      { files := l.map gzEntry, compressed := l.length, errors := 0,
        attempted := l.map (fun f => (f.dir, f.name)) } := by
  induction l with
  | nil => rfl
  | cons f rest ih =>
    have h1 := hgz f (List.mem_cons_self f rest)
    have h2 := hok f (List.mem_cons_self f rest)
    have ihr := ih (fun g hg => hgz g (List.mem_cons_of_mem f hg))
      (fun g hg => hok g (List.mem_cons_of_mem f hg))
    simp [compressWalk, h1, h2, ihr, gzEntry]

/-- The walk attempts compression on exactly the files that do not carry
the compressed suffix, whatever the outcomes are. -/
theorem compressWalk_attempted (ok : List String → String → Bool) (l : List FileEntry) :
    (compressWalk ok l).attempted =
      (l.filter (fun f => !(endswith f.name gzSuffix))).map (fun f => (f.dir, f.name)) := by
  induction l with
  | nil => rfl
  | cons f rest ih =>
    by_cases h1 : endswith f.name gzSuffix = true
    · simp [compressWalk, h1, ih, List.filter_cons]
    · have h1' : endswith f.name gzSuffix = false := by simpa using h1
      by_cases h2 : ok f.dir f.name = true
      · simp [compressWalk, h1', h2, ih, List.filter_cons]
      · have h2' : ok f.dir f.name = false := by simpa using h2
        simp [compressWalk, h1', h2', ih, List.filter_cons]

/-- The success counter counts exactly the non-suffixed files whose
compression succeeds. -/
theorem compressWalk_compressed (ok : List String → String → Bool) (l : List FileEntry) :
    (compressWalk ok l).compressed =
      (l.filter (fun f => !(endswith f.name gzSuffix) && ok f.dir f.name)).length := by
  induction l with
  | nil => rfl
  | cons f rest ih =>
    by_cases h1 : endswith f.name gzSuffix = true
    · simp [compressWalk, h1, ih, List.filter_cons]
    · have h1' : endswith f.name gzSuffix = false := by simpa using h1
      by_cases h2 : ok f.dir f.name = true
      · simp [compressWalk, h1', h2, ih, List.filter_cons]
      · have h2' : ok f.dir f.name = false := by simpa using h2
        simp [compressWalk, h1', h2', ih, List.filter_cons]

/-- The error counter counts exactly the non-suffixed files whose
compression fails. -/
theorem compressWalk_errors (ok : List String → String → Bool) (l : List FileEntry) :
    (compressWalk ok l).errors =
      (l.filter (fun f => !(endswith f.name gzSuffix) && !(ok f.dir f.name))).length := by
  induction l with
  | nil => rfl
  | cons f rest ih =>
    by_cases h1 : endswith f.name gzSuffix = true
    · simp [compressWalk, h1, ih, List.filter_cons]
    · have h1' : endswith f.name gzSuffix = false := by simpa using h1
      by_cases h2 : ok f.dir f.name = true
      · simp [compressWalk, h1', h2, ih, List.filter_cons]
      · have h2' : ok f.dir f.name = false := by simpa using h2
        simp [compressWalk, h1', h2', ih, List.filter_cons]

/-! ## Claim theorems -/

/-- C1: for a build tree of N files none of which ends in the compressed
suffix, a successful run of process_frontend_files leaves the output
directory holding exactly N files, each the gzip-compressed counterpart of
an input file with the suffix appended to its name, with zero original
files remaining and the relative directory structure preserved. -/
theorem process_frontend_files_complete (ok : List String → String → Bool)
    (w : PackWorld) (build : List FileEntry)
    (h : w.buildDir = some build)
    (hgz : ∀ f ∈ build, endswith f.name gzSuffix = false)
    (hok : ∀ f ∈ build, ok f.dir f.name = true)
    (hnd : (build.map (fun f => (f.dir, f.name))).Nodup) :
    (process_frontend_files ok w).1 = true
    ∧ (process_frontend_files ok w).2.outputDir = build.map gzEntry
    ∧ ((process_frontend_files ok w).2.outputDir).length = build.length
    ∧ (∀ g ∈ (process_frontend_files ok w).2.outputDir, endswith g.name gzSuffix = true)
    ∧ (∀ f ∈ build, ∀ g ∈ (process_frontend_files ok w).2.outputDir, g.name ≠ f.name)
    ∧ (((process_frontend_files ok w).2.outputDir).map (fun f => (f.dir, f.name))).Nodup := by
  have hw := compressWalk_all_ok ok build hgz hok
  have hres : process_frontend_files ok w
      = (true, { w with outputDir := build.map gzEntry }) := by
    simp [process_frontend_files, h, hw]
  rw [hres]
  refine ⟨rfl, rfl, by simp, ?_, ?_, ?_⟩
  · intro g hg
    simp only [List.mem_map] at hg
    obtain ⟨f, hf, rfl⟩ := hg
    exact endswith_append_gz f.name
  · intro f hf g hg
    simp only [List.mem_map] at hg
    obtain ⟨f2, hf2, rfl⟩ := hg
    intro hEq
    have h1 : endswith (f2.name ++ gzSuffix) gzSuffix = true := endswith_append_gz f2.name
    have h2 := hgz f hf
    have hEq2 : f2.name ++ gzSuffix = f.name := hEq
    rw [hEq2] at h1
    rw [h2] at h1
    cases h1
  · have hmap : ((build.map gzEntry).map (fun f => (f.dir, f.name)))
        = (build.map (fun f => (f.dir, f.name))).map
            (fun p => (p.1, p.2 ++ gzSuffix)) := by
      simp [gzEntry, Function.comp]
    rw [hmap]
    refine hnd.map ?_
    intro a b hab
    cases a; cases b
    simp only [Prod.mk.injEq] at hab ⊢
    exact ⟨hab.1, append_gz_right_cancel hab.2⟩

/-- Witness for C1 on a concrete two-file build tree over a stale output
directory, with every compression succeeding. -/
theorem process_frontend_files_complete_witness :
    (process_frontend_files allOk sampleWorld).1 = true
    ∧ (process_frontend_files allOk sampleWorld).2.outputDir = sampleBuild.map gzEntry
    ∧ ((process_frontend_files allOk sampleWorld).2.outputDir).length = sampleBuild.length
    ∧ (∀ g ∈ (process_frontend_files allOk sampleWorld).2.outputDir,
        endswith g.name gzSuffix = true)
    ∧ (∀ f ∈ sampleBuild, ∀ g ∈ (process_frontend_files allOk sampleWorld).2.outputDir,
        g.name ≠ f.name)
    ∧ (((process_frontend_files allOk sampleWorld).2.outputDir).map
        (fun f => (f.dir, f.name))).Nodup :=
  process_frontend_files_complete allOk sampleWorld sampleBuild rfl
    (by decide) (by decide) (by decide)

/-- C2: one run of the version stamper persists a build number exactly one
larger than the previously persisted value, where an absent file or field
counts as 1; the persisted value strictly increases across the run; a first
run from no persisted file persists 2 and writes the header for that
version and build number 2, and a second run persists 3. -/
theorem version_main_build_number_increments (config tsIso tsHdr tsIso2 tsHdr2 : String)
    (st : Option BuildInfoFile) :
    (version_main config st tsIso tsHdr).1.build_number
      = some (get_current_build_number st + 1)
    ∧ get_current_build_number st
        < get_current_build_number (some (version_main config st tsIso tsHdr).1)
    ∧ (version_main config none tsIso tsHdr).1.build_number = some 2
    ∧ (version_main config none tsIso tsHdr).2.1
        = update_version_header (get_semantic_version config) 2 tsHdr
    ∧ (version_main config (some (version_main config none tsIso tsHdr).1)
        tsIso2 tsHdr2).1.build_number = some 3 := by
  refine ⟨rfl, ?_,
    by norm_num [version_main, get_current_build_number, save_build_info], ?_, ?_⟩
  · simp [version_main, get_current_build_number, save_build_info]
  · norm_num [version_main, get_current_build_number, save_build_info]
  · norm_num [version_main, get_current_build_number, save_build_info]

/-- C3: whenever build_frontend reaches the chdir into the frontend
directory (the frontend directory exists and a package manager was
detected), the working directory recovered from its event trace equals the
original directory on every exit path: success, subprocess failure,
missing build directory, and unexpected exception. -/
theorem build_frontend_restores_cwd (w : FrontendWorld) (cwd0 fdir : String)
    (hfe : w.frontendDirExists = true)
    (hpm : get_package_manager w.pnpmLock w.yarnLock w.npmLock w.packageJson ≠ none) :
    FsEvent.chdirFrontend ∈ (build_frontend w).2
    ∧ runCwd cwd0 fdir (build_frontend w).2 = cwd0 := by
  cases hg : get_package_manager w.pnpmLock w.yarnLock w.npmLock w.packageJson with
  | none => exact absurd hg hpm
  | some pm =>
    cases hnm : w.nodeModules <;> cases hio : w.installOutcome <;>
      cases hbo : w.buildOutcome <;> cases hbd : w.buildDirExistsAfter <;>
      simp [build_frontend, hfe, hg, hnm, hio, hbo, hbd, runCwd]

/-- Witness for C3 on a world where the install subprocess exits nonzero
after the chdir. -/
theorem build_frontend_restores_cwd_witness :
    FsEvent.chdirFrontend ∈ (build_frontend sampleFrontendWorld).2
    ∧ runCwd "/project" "/frontend" (build_frontend sampleFrontendWorld).2 = "/project" :=
  build_frontend_restores_cwd sampleFrontendWorld "/project" "/frontend" rfl (by decide)

/-- C4: when the build directory is absent, process_frontend_files returns
failure and the whole world, the pre-existing output directory contents
included, is left untouched. -/
theorem process_frontend_files_missing_build (ok : List String → String → Bool)
    (w : PackWorld) (h : w.buildDir = none) :
    process_frontend_files ok w = (false, w) := by
  simp [process_frontend_files, h]

/-- Witness for C4 on a world with no build directory and a nonempty
output directory. -/
theorem process_frontend_files_missing_build_witness :
    process_frontend_files allOk staleWorld = (false, staleWorld) :=
  process_frontend_files_missing_build allOk staleWorld rfl

/-- C5 counterexample: the extraction is not line-oriented. On a
configuration whose assignment spans a line break, the code extracts the
value while a line-oriented matcher built from the specification text
falls back to the default, so the two disagree on a concrete input. -/
theorem get_semantic_version_not_line_oriented :
    get_semantic_version "version =\n\"2.3.4\"" = "2.3.4"
    ∧ get_semantic_version_lineOriented "version =\n\"2.3.4\"" = "1.0.0"
    ∧ get_semantic_version "version =\n\"2.3.4\"" ≠
        get_semantic_version_lineOriented "version =\n\"2.3.4\"" := by
  decide

/-- C5 amended: get_semantic_version extracts the quoted value of a
version assignment by a pattern match over the whole configuration content
(whose whitespace may span line breaks, so the match is not line-oriented),
returning the value, e.g. 2.3.4 for a content starting with that
assignment, and returns the fixed fallback 1.0.0 when no match is found
rather than failing. -/
theorem get_semantic_version_amended (v rest : String) (hne : v.data ≠ [])
    (hq : ∀ c ∈ v.data, (c == '"') = false) :
    get_semantic_version ("version = \"" ++ v ++ "\"" ++ rest) = v
    ∧ get_semantic_version "build_flags = -O2" = "1.0.0" := by
  refine ⟨?_, by decide⟩
  have hdata : ("version = \"" ++ v ++ "\"" ++ rest).data
      = 'v' :: 'e' :: 'r' :: 's' :: 'i' :: 'o' :: 'n' :: ' ' :: '=' :: ' ' :: '"' ::
          (v.data ++ '"' :: rest.data) := by
    have hlit : ("version = \"").data = ['v','e','r','s','i','o','n',' ','=',' ','"'] := rfl
    rw [String.data_append, String.data_append, String.data_append, hlit]
    simp
  unfold get_semantic_version
  rw [hdata]
  rw [searchVersion]
  rw [matchVersionAt_assignment v rest hne hq]

/-- Witness for C5 amended at the value 2.3.4 followed by a further
configuration line. -/
theorem get_semantic_version_amended_witness :
    get_semantic_version ("version = \"" ++ "2.3.4" ++ "\"" ++ "\nboard = esp32") = "2.3.4"
    ∧ get_semantic_version "build_flags = -O2" = "1.0.0" :=
  get_semantic_version_amended "2.3.4" "\nboard = esp32" (by decide) (by decide)

/-- C6: get_package_manager is a pure function of the four marker bits,
consulting them in priority order pnpm lockfile, yarn lockfile, then npm
lockfile or manifest, and it returns none exactly when every marker is
absent. -/
theorem get_package_manager_characterization (pnpmLock yarnLock npmLock packageJson : Bool) :
    (get_package_manager pnpmLock yarnLock npmLock packageJson = none ↔
      pnpmLock = false ∧ yarnLock = false ∧ npmLock = false ∧ packageJson = false)
    ∧ (get_package_manager pnpmLock yarnLock npmLock packageJson = some PkgManager.pnpm ↔
      pnpmLock = true)
    ∧ (get_package_manager pnpmLock yarnLock npmLock packageJson = some PkgManager.yarn ↔
      pnpmLock = false ∧ yarnLock = true)
    ∧ (get_package_manager pnpmLock yarnLock npmLock packageJson = some PkgManager.npm ↔
      pnpmLock = false ∧ yarnLock = false ∧ (npmLock = true ∨ packageJson = true)) := by
  cases pnpmLock <;> cases yarnLock <;> cases npmLock <;> cases packageJson <;> decide

/-- C7: process_frontend_files succeeds exactly when every non-suffixed
file compresses; compression is attempted on every non-suffixed file
regardless of other failures, and the reported counts are the numbers of
succeeded and failed compressions. -/
theorem process_frontend_files_best_effort (ok : List String → String → Bool)
    (w : PackWorld) (build : List FileEntry) (h : w.buildDir = some build) :
    ((process_frontend_files ok w).1 = true ↔
      ∀ f ∈ build, endswith f.name gzSuffix = false → ok f.dir f.name = true)
    ∧ (compressWalk ok build).attempted =
        (build.filter (fun f => !(endswith f.name gzSuffix))).map (fun f => (f.dir, f.name))
    ∧ (compressWalk ok build).compressed =
        (build.filter (fun f => !(endswith f.name gzSuffix) && ok f.dir f.name)).length
    ∧ (compressWalk ok build).errors =
        (build.filter (fun f => !(endswith f.name gzSuffix) && !(ok f.dir f.name))).length := by
  refine ⟨?_, compressWalk_attempted ok build, compressWalk_compressed ok build,
    compressWalk_errors ok build⟩
  have hres : (process_frontend_files ok w).1 = ((compressWalk ok build).errors == 0) := by
    simp [process_frontend_files, h]
  rw [hres, compressWalk_errors]
  simp only [beq_iff_eq, List.length_eq_zero, List.filter_eq_nil_iff]
  constructor
  · intro hh f hf he
    have := hh f hf
    simp [he] at this
    exact this
  · intro hh f hf
    by_cases he : endswith f.name gzSuffix = true
    · simp [he]
    · have he' : endswith f.name gzSuffix = false := by simpa using he
      simp [he', hh f hf he']

/-- Witness for C7 on a build tree with one succeeding file, one failing
file and one already-suffixed file. -/
theorem process_frontend_files_best_effort_witness :
    ((process_frontend_files mixedOk mixedWorld).1 = true ↔
      ∀ f ∈ mixedBuild, endswith f.name gzSuffix = false → mixedOk f.dir f.name = true)
    ∧ (compressWalk mixedOk mixedBuild).attempted =
        (mixedBuild.filter (fun f => !(endswith f.name gzSuffix))).map
          (fun f => (f.dir, f.name))
    ∧ (compressWalk mixedOk mixedBuild).compressed =
        (mixedBuild.filter
          (fun f => !(endswith f.name gzSuffix) && mixedOk f.dir f.name)).length
    ∧ (compressWalk mixedOk mixedBuild).errors =
        (mixedBuild.filter
          (fun f => !(endswith f.name gzSuffix) && !(mixedOk f.dir f.name))).length :=
  process_frontend_files_best_effort mixedOk mixedWorld mixedBuild rfl

/-- C8: running the processing step twice on an unchanged build tree gives
identical output directories, and in particular an identical list of
output file names, because the step resets the output directory and
repopulates it purely from the build tree. -/
theorem process_frontend_files_idempotent (ok : List String → String → Bool)
    (build out : List FileEntry) :
    (process_frontend_files ok
        { buildDir := some build,
          outputDir := (process_frontend_files ok
            { buildDir := some build, outputDir := out }).2.outputDir }).2.outputDir
      = (process_frontend_files ok
          { buildDir := some build, outputDir := out }).2.outputDir
    ∧ ((process_frontend_files ok
        { buildDir := some build,
          outputDir := (process_frontend_files ok
            { buildDir := some build, outputDir := out }).2.outputDir }).2.outputDir).map
          FileEntry.name
      = ((process_frontend_files ok
          { buildDir := some build, outputDir := out }).2.outputDir).map FileEntry.name :=
  ⟨rfl, rfl⟩

/-- C9: when the frontend directory exists but no package-manager marker
is present, build_frontend returns failure with an empty event trace: no
chdir happened and no subprocess was spawned, so the working directory is
unchanged. -/
theorem build_frontend_no_markers (w : FrontendWorld) (cwd0 fdir : String)
    (hfe : w.frontendDirExists = true) (h1 : w.pnpmLock = false)
    (h2 : w.yarnLock = false) (h3 : w.npmLock = false) (h4 : w.packageJson = false) :
    build_frontend w = (false, [])
    ∧ runCwd cwd0 fdir (build_frontend w).2 = cwd0 := by
  have hb : build_frontend w = (false, []) := by
    simp [build_frontend, get_package_manager, hfe, h1, h2, h3, h4]
  exact ⟨hb, by rw [hb]; rfl⟩

/-- Witness for C9 on a marker-free frontend world. -/
theorem build_frontend_no_markers_witness :
    build_frontend bareFrontendWorld = (false, [])
    ∧ runCwd "/project" "/frontend" (build_frontend bareFrontendWorld).2 = "/project" :=
  build_frontend_no_markers bareFrontendWorld "/project" "/frontend" rfl rfl rfl rfl rfl

/-- C10: compress_file removes the original only once the compressed
sibling is completely written and closed (whenever the original is gone,
the sibling is complete and the call succeeded); any exception yields a
failure return with the original still present; and on success the
original is gone and the complete sibling remains. -/
theorem compress_file_preserves_original_on_failure (o : CompressOutcome) (s : CFState)
    (hs : s.originalPresent = true) :
    ((compress_file o s).2.originalPresent = false →
      (compress_file o s).2.gzWritten = some GzState.complete ∧ (compress_file o s).1 = true)
    ∧ (o ≠ CompressOutcome.ok →
      (compress_file o s).1 = false ∧ (compress_file o s).2.originalPresent = true)
    ∧ (o = CompressOutcome.ok →
      (compress_file o s).1 = true ∧ (compress_file o s).2.originalPresent = false
        ∧ (compress_file o s).2.gzWritten = some GzState.complete) := by
  cases o <;> simp [compress_file, hs]

/-- Witness for C10 at a failure while writing the compressed stream. -/
theorem compress_file_preserves_original_on_failure_witness :
    ((compress_file CompressOutcome.writeFail
        { originalPresent := true, gzWritten := none }).2.originalPresent = false →
      (compress_file CompressOutcome.writeFail
        { originalPresent := true, gzWritten := none }).2.gzWritten = some GzState.complete
      ∧ (compress_file CompressOutcome.writeFail
          { originalPresent := true, gzWritten := none }).1 = true)
    ∧ (CompressOutcome.writeFail ≠ CompressOutcome.ok →
      (compress_file CompressOutcome.writeFail
        { originalPresent := true, gzWritten := none }).1 = false
      ∧ (compress_file CompressOutcome.writeFail
          { originalPresent := true, gzWritten := none }).2.originalPresent = true)
    ∧ (CompressOutcome.writeFail = CompressOutcome.ok →
      (compress_file CompressOutcome.writeFail
        { originalPresent := true, gzWritten := none }).1 = true
      ∧ (compress_file CompressOutcome.writeFail
          { originalPresent := true, gzWritten := none }).2.originalPresent = false
      ∧ (compress_file CompressOutcome.writeFail
          { originalPresent := true, gzWritten := none }).2.gzWritten
          = some GzState.complete) :=
  compress_file_preserves_original_on_failure CompressOutcome.writeFail
    { originalPresent := true, gzWritten := none } rfl
